import Mathlib

/-!
Shallow embedding of the billing-period debt aggregation engine of
`src/debt_bot.py` (class `DebtBot`): the period resolver, the debt
aggregator (`calculate_monthly_debt`, `get_daily_debts`), the summary
builder (`get_all_debts_summary` over `get_all_employees`) and the
running-total annotation loop of `employee_button_handler`.

Sheet tables are ordered sequences of rows of string cells, as returned
by `get_sheet_data` (possibly ragged).  Money amounts are modelled as
exact rationals: the source parses them with Python `float`, whose
rounding drift the specification flags as an accepted idealization.
-/

-- Batteries marks the `Rat` field operations `@[irreducible]`; restore
-- reducibility so that concrete aggregates evaluate by `decide`/`rfl`.
set_option allowUnsafeReducibility true in
attribute [semireducible] Rat.add Rat.mul Rat.inv Rat.sub Rat.ofScientific

/-- A sheet row: an ordered sequence of string cells.  Rows may be ragged. -/
abbrev Row := List String

/-- The source's guarded column access `row[i] if len(row) > i else ""`. -/
def getCol (row : Row) (i : Nat) : String := row.getD i ""

/-- ASCII whitespace stripped by Python `float` around a numeric literal. -/
def isWs (c : Char) : Bool :=
  c == ' ' || c == '\t' || c == '\n' || c == '\r' || c == '\x0b' || c == '\x0c'

/-- Strip leading and trailing whitespace from a character list. -/
def stripWs (cs : List Char) : List Char :=
  ((cs.dropWhile isWs).reverse.dropWhile isWs).reverse

/-- Split a character list into its maximal leading run of decimal digits
and the remainder. -/
def takeDigits : List Char → List Char × List Char
  | [] => ([], [])
  | c :: cs =>
    if c.isDigit then
      let r := takeDigits cs
      (c :: r.1, r.2)
    else ([], c :: cs)

/-- Value of a digit run, most significant first. -/
def digitsVal (ds : List Char) : Nat :=
  ds.foldl (fun n c => 10 * n + (c.toNat - 48)) 0

/-- Consume an optional leading sign, returning `1` or `-1`. -/
def parseSign : List Char → Int × List Char
  | '+' :: cs => (1, cs)
  | '-' :: cs => (-1, cs)
  | cs => (1, cs)

/-- Consume an optional exponent part `e[sign]digits`; yields `(0, cs)` when
no exponent marker is present, and `none` when `e` is not followed by digits. -/
def parseExp : List Char → Option (Int × List Char)
  | c :: rest =>
    if c == 'e' || c == 'E' then
      let s := parseSign rest
      let d := takeDigits s.2
      if d.1.isEmpty then none else some (s.1 * (digitsVal d.1 : Int), d.2)
    else some (0, c :: rest)
  | [] => some (0, [])

/-- Assemble sign, integer digits, fraction digits and the remaining input
into the parsed rational; fails unless the remainder, after an optional
exponent, is empty. -/
def finishNum (sg : Int) (ip fp : List Char) (cs : List Char) : Option Rat :=
  match parseExp cs with
  | none => none
  | some (e, rest) =>
    if rest.isEmpty then
      let mant : Rat := (digitsVal ip : Rat) + (digitsVal fp : Rat) / ((10 : Rat) ^ fp.length)
      let v : Rat := (sg : Rat) * mant
      some (if 0 ≤ e then v * (10 : Rat) ^ e.toNat else v / (10 : Rat) ^ (-e).toNat)
    else none

/-- Model of Python `float(s)` on finite decimal literals: optional
surrounding whitespace, optional sign, digits with an optional fractional
part and an optional exponent.  `none` models `ValueError`.  (The spellings
`inf`/`nan` and digit-group underscores are outside the model; no claim
depends on them.) -/
def parseAmount (s : String) : Option Rat :=
  let cs := stripWs s.data
  let s1 := parseSign cs
  let d1 := takeDigits s1.2
  match d1.2 with
  | '.' :: rest =>
    let d2 := takeDigits rest
    if d1.1.isEmpty && d2.1.isEmpty then none else finishNum s1.1 d1.1 d2.1 d2.2
  | _ => if d1.1.isEmpty then none else finishNum s1.1 d1.1 [] d1.2

/-- One entry of `calculate_monthly_debt`'s `details` list. -/
structure Detail where
  date : String
  items : String
  amount : Rat
deriving DecidableEq

/-- One entry of `get_daily_debts`'s result list. -/
structure DailyDebt where
  employee : String
  items : String
  amount : Rat
deriving DecidableEq

/-- A debts row passes the monthly filter: it has at least 5 columns and its
employee cell (column 1) and period-label cell (column 4) equal the given
name and period label — exact string equality, no normalization. -/
abbrev rowMatchesMonthly (employee_name month : String) (row : Row) : Prop :=
  5 ≤ row.length ∧ getCol row 1 = employee_name ∧ getCol row 4 = month

/-- The row loop of `DebtBot.calculate_monthly_debt` (src/debt_bot.py,
lines 167-182), over the data rows with the header already dropped: a row
with at least 5 columns whose employee and period label match contributes
its parsed amount to the total and a `{date, items, amount}` record to the
details; a matching row whose amount cell fails to parse is skipped
(`except ValueError: continue`). -/
def monthlyScan (employee_name month : String) : List Row → Rat × List Detail
  | [] => (0, [])
  | row :: rest =>
    if rowMatchesMonthly employee_name month row then
      match parseAmount (getCol row 3) with
      | some a =>
        (a + (monthlyScan employee_name month rest).1,
          ⟨getCol row 0, getCol row 2, a⟩ :: (monthlyScan employee_name month rest).2)
      | none => monthlyScan employee_name month rest
    else monthlyScan employee_name month rest

/-- `DebtBot.calculate_monthly_debt` with an explicit period label (the
`month=None` default resolves the current period; that branch is modelled
by `resolve_period` below).  Returns `(total, details)`; a table with fewer
than two rows (empty or header-only) yields `(0, [])`. -/
def calculate_monthly_debt (debts_data : List Row) (employee_name month : String) :
    Rat × List Detail :=
  if debts_data.length < 2 then (0, [])
  else monthlyScan employee_name month (debts_data.drop 1)

/-- Python truthiness `if employee_name:` of the optional employee filter:
active exactly when the argument is present and non-empty. -/
def empFilterActive : Option String → Bool
  | none => false
  | some n => !(n == "")

/-- A debts row passes the daily filter: at least 4 columns and its date
cell (column 0) equals the given date exactly. -/
abbrev rowMatchesDaily (date : String) (row : Row) : Prop :=
  4 ≤ row.length ∧ getCol row 0 = date

/-- The `continue` guard `if employee_name and debt_employee != employee_name`
of `get_daily_debts`: the row is skipped when the employee filter is active
and the row's employee cell differs from it. -/
abbrev skipsEmployee (employee_name : Option String) (row : Row) : Prop :=
  empFilterActive employee_name = true ∧ getCol row 1 ≠ employee_name.getD ""

/-- The row loop of `DebtBot.get_daily_debts` (src/debt_bot.py,
lines 193-210) over the data rows: rows with at least 4 columns whose date
cell equals `date` and which pass the optional employee filter contribute a
`{employee, items, amount}` record; unparsable amounts are skipped. -/
def dailyScan (date : String) (employee_name : Option String) : List Row → List DailyDebt
  | [] => []
  | row :: rest =>
    if rowMatchesDaily date row then
      if skipsEmployee employee_name row then dailyScan date employee_name rest
      else
        match parseAmount (getCol row 3) with
        | some a => ⟨getCol row 1, getCol row 2, a⟩ :: dailyScan date employee_name rest
        | none => dailyScan date employee_name rest
    else dailyScan date employee_name rest

/-- `DebtBot.get_daily_debts`: entries for a given day, optionally filtered
by employee; a table with fewer than two rows yields `[]`. -/
def get_daily_debts (debts_data : List Row) (date : String)
    (employee_name : Option String) : List DailyDebt :=
  if debts_data.length < 2 then []
  else dailyScan date employee_name (debts_data.drop 1)

/-- `DebtBot.get_all_employees`: the name cells (column 1) of all employee
rows with at least 2 columns, in store order, duplicates kept as written. -/
def get_all_employees (employees_data : List Row) : List String :=
  if employees_data.length < 2 then []
  else (employees_data.drop 1).filterMap
    (fun row => if 1 < row.length then some (getCol row 1) else none)

/-- The employee loop of `DebtBot.get_all_debts_summary` (src/debt_bot.py,
lines 220-224): each employee whose period total is strictly positive
contributes its total to the grand total and a `(name, total)` pair to the
summary.  The Python code renders the pair as the display string
`f"{employee}: {employee_total} ₽"`; the formatting is presentation-only
and the pair is modelled instead. -/
def summaryScan (debts_data : List Row) (month : String) :
    List String → Rat × List (String × Rat)
  | [] => (0, [])
  | e :: rest =>
    let t := (calculate_monthly_debt debts_data e month).1
    if 0 < t then
      (t + (summaryScan debts_data month rest).1, (e, t) :: (summaryScan debts_data month rest).2)
    else summaryScan debts_data month rest

/-- `DebtBot.get_all_debts_summary`: `(grand_total, per-employee summary)`
over the enumerated employees. -/
def get_all_debts_summary (employees_data debts_data : List Row) (month : String) :
    Rat × List (String × Rat) :=
  summaryScan debts_data month (get_all_employees employees_data)

/-- The running-total loop of `employee_button_handler` (src/debt_bot.py,
lines 348-354): annotate each detail, in input order, with the cumulative
sum of the amounts seen so far. -/
def runningAnnotate (acc : Rat) : List Detail → List (Detail × Rat)
  | [] => []
  | d :: rest => (d, acc + d.amount) :: runningAnnotate (acc + d.amount) rest

/-- `running_total`: the pure cumulative-sum annotation starting from 0. -/
def running_total (details : List Detail) : List (Detail × Rat) :=
  runningAnnotate 0 details

/-- A calendar date: year, month (1-12), day (1-31). -/
structure CalDate where
  year : Nat
  month : Nat
  day : Nat
deriving DecidableEq

/-- English month name, as Python `strftime("%B")` formats it under the
default C locale. -/
def monthName : Nat → String
  | 1 => "January"
  | 2 => "February"
  | 3 => "March"
  | 4 => "April"
  | 5 => "May"
  | 6 => "June"
  | 7 => "July"
  | 8 => "August"
  | 9 => "September"
  | 10 => "October"
  | 11 => "November"
  | 12 => "December"
  | _ => ""

/-- `d.strftime("%B %Y")`: the month+year period label. -/
def monthLabel (m y : Nat) : String := monthName m ++ " " ++ toString y

/-- Days in a calendar month, Gregorian leap rule. -/
def daysInMonth (y m : Nat) : Nat :=
  if m = 2 then (if y % 4 = 0 ∧ (y % 100 ≠ 0 ∨ y % 400 = 0) then 29 else 28)
  else if m = 4 ∨ m = 6 ∨ m = 9 ∨ m = 11 then 30
  else 31

/-- `some_date - timedelta(days=1)` on a structured date. -/
def dateMinusOneDay (d : CalDate) : CalDate :=
  if 1 < d.day then ⟨d.year, d.month, d.day - 1⟩
  else if 1 < d.month then ⟨d.year, d.month - 1, daysInMonth d.year (d.month - 1)⟩
  else ⟨d.year - 1, 12, 31⟩

/-- The period-resolution branch of `DebtBot.calculate_monthly_debt`
(src/debt_bot.py, lines 150-158): a reference date with day ≥ 10 is
labelled by its own month and year, otherwise by the month of
`reference_date.replace(day=1) - timedelta(days=1)`, i.e. the previous
calendar month. -/
def resolve_period (d : CalDate) : String :=
  if 10 ≤ d.day then monthLabel d.month d.year
  else
    let last_month := dateMinusOneDay ⟨d.year, d.month, 1⟩
    monthLabel last_month.month last_month.year

/-! ### Helper lemmas -/

theorem monthlyScan_cons_match (n m : String) (row : Row) (rest : List Row) (a : Rat)
    (hm : rowMatchesMonthly n m row) (hp : parseAmount (getCol row 3) = some a) :
    monthlyScan n m (row :: rest) =
      (a + (monthlyScan n m rest).1,
        ⟨getCol row 0, getCol row 2, a⟩ :: (monthlyScan n m rest).2) := by
  simp only [monthlyScan, hp]
  rw [if_pos hm]

theorem monthlyScan_cons_skip (n m : String) (row : Row) (rest : List Row)
    (h : ¬ rowMatchesMonthly n m row ∨ parseAmount (getCol row 3) = none) :
    monthlyScan n m (row :: rest) = monthlyScan n m rest := by
  by_cases hm : rowMatchesMonthly n m row
  · rcases h with h | hp
    · exact absurd hm h
    · simp only [monthlyScan, hp]
      rw [if_pos hm]
  · simp only [monthlyScan]
    rw [if_neg hm]

theorem monthlyScan_fst (n m : String) (rows : List Row) :
    (monthlyScan n m rows).1 =
      (((rows.filter fun row => decide (rowMatchesMonthly n m row)).filterMap
        fun row => parseAmount (getCol row 3)).sum) := by
  induction rows with
  | nil => simp [monthlyScan]
  | cons row rest ih =>
    by_cases hm : rowMatchesMonthly n m row
    · cases hp : parseAmount (getCol row 3) with
      | some a => simp [monthlyScan_cons_match n m row rest a hm hp, hm, hp, ih]
      | none => simp [monthlyScan_cons_skip n m row rest (Or.inr hp), hm, hp, ih]
    · simp [monthlyScan_cons_skip n m row rest (Or.inl hm), hm, ih]

theorem monthlyScan_snd (n m : String) (rows : List Row) :
    (monthlyScan n m rows).2 =
      ((rows.filter fun row => decide (rowMatchesMonthly n m row)).filterMap
        fun row => (parseAmount (getCol row 3)).map
          fun a => ({ date := getCol row 0, items := getCol row 2, amount := a } : Detail)) := by
  induction rows with
  | nil => simp [monthlyScan]
  | cons row rest ih =>
    by_cases hm : rowMatchesMonthly n m row
    · cases hp : parseAmount (getCol row 3) with
      | some a => simp [monthlyScan_cons_match n m row rest a hm hp, hm, hp, ih]
      | none => simp [monthlyScan_cons_skip n m row rest (Or.inr hp), hm, hp, ih]
    · simp [monthlyScan_cons_skip n m row rest (Or.inl hm), hm, ih]

theorem monthlyScan_skip (n m : String) (row : Row)
    (h : rowMatchesMonthly n m row → parseAmount (getCol row 3) = none)
    (l1 l2 : List Row) :
    monthlyScan n m (l1 ++ row :: l2) = monthlyScan n m (l1 ++ l2) := by
  induction l1 with
  | nil =>
    by_cases hm : rowMatchesMonthly n m row
    · simpa using monthlyScan_cons_skip n m row l2 (Or.inr (h hm))
    · simpa using monthlyScan_cons_skip n m row l2 (Or.inl hm)
  | cons r l1 ih =>
    by_cases hr : rowMatchesMonthly n m r
    · cases hp : parseAmount (getCol r 3) with
      | some a =>
        simp only [List.cons_append, monthlyScan_cons_match n m r _ a hr hp, ih]
      | none =>
        simp only [List.cons_append, monthlyScan_cons_skip n m r _ (Or.inr hp), ih]
    · simp only [List.cons_append, monthlyScan_cons_skip n m r _ (Or.inl hr), ih]

theorem monthlyScan_no_match (n m : String) (rows : List Row)
    (h : ∀ row ∈ rows, ¬ rowMatchesMonthly n m row) :
    monthlyScan n m rows = (0, []) := by
  induction rows with
  | nil => rfl
  | cons row rest ih =>
    rw [monthlyScan_cons_skip n m row rest (Or.inl (h row (List.mem_cons_self row rest)))]
    exact ih fun r hr => h r (List.mem_cons_of_mem _ hr)

theorem calculate_skip (pre post : List Row) (row : Row) (n m : String)
    (hpre : pre ≠ [])
    (h : rowMatchesMonthly n m row → parseAmount (getCol row 3) = none) :
    calculate_monthly_debt (pre ++ row :: post) n m =
      calculate_monthly_debt (pre ++ post) n m := by
  obtain ⟨p, pre', rfl⟩ := List.exists_cons_of_ne_nil hpre
  have hskip := monthlyScan_skip n m row h pre' post
  have h2 : ¬ (p :: pre' ++ row :: post).length < 2 := by
    simp only [List.cons_append, List.length_cons, List.length_append]
    omega
  by_cases hlen : (p :: pre' ++ post).length < 2
  · have hp' : pre' = [] := by
      simp [List.length_append] at hlen
      exact List.eq_nil_of_length_eq_zero (by omega)
    have hq' : post = [] := by
      simp [List.length_append] at hlen
      exact List.eq_nil_of_length_eq_zero (by omega)
    subst hp'; subst hq'
    simp only [calculate_monthly_debt, if_neg h2, if_pos hlen]
    simpa using hskip
  · simp only [calculate_monthly_debt, if_neg h2, if_neg hlen]
    exact hskip

theorem dailyScan_cons_match (date : String) (en : Option String) (row : Row)
    (rest : List Row) (a : Rat) (hm : rowMatchesDaily date row)
    (hs : ¬ skipsEmployee en row) (hp : parseAmount (getCol row 3) = some a) :
    dailyScan date en (row :: rest) =
      ⟨getCol row 1, getCol row 2, a⟩ :: dailyScan date en rest := by
  simp only [dailyScan, hp]
  rw [if_pos hm, if_neg hs]

theorem dailyScan_cons_skip (date : String) (en : Option String) (row : Row)
    (rest : List Row)
    (h : ¬ rowMatchesDaily date row ∨ skipsEmployee en row ∨
      parseAmount (getCol row 3) = none) :
    dailyScan date en (row :: rest) = dailyScan date en rest := by
  by_cases hm : rowMatchesDaily date row
  · by_cases hs : skipsEmployee en row
    · simp only [dailyScan]
      rw [if_pos hm, if_pos hs]
    · rcases h with h | h | hp
      · exact absurd hm h
      · exact absurd h hs
      · simp only [dailyScan, hp]
        rw [if_pos hm, if_neg hs]
  · simp only [dailyScan]
    rw [if_neg hm]

theorem dailyScan_skip (date : String) (en : Option String) (row : Row)
    (h : rowMatchesDaily date row → ¬ skipsEmployee en row →
      parseAmount (getCol row 3) = none)
    (l1 l2 : List Row) :
    dailyScan date en (l1 ++ row :: l2) = dailyScan date en (l1 ++ l2) := by
  induction l1 with
  | nil =>
    by_cases hm : rowMatchesDaily date row
    · by_cases hs : skipsEmployee en row
      · simpa using dailyScan_cons_skip date en row l2 (Or.inr (Or.inl hs))
      · simpa using dailyScan_cons_skip date en row l2 (Or.inr (Or.inr (h hm hs)))
    · simpa using dailyScan_cons_skip date en row l2 (Or.inl hm)
  | cons r l1 ih =>
    by_cases hr : rowMatchesDaily date r
    · by_cases hs : skipsEmployee en r
      · simp only [List.cons_append, dailyScan_cons_skip date en r _ (Or.inr (Or.inl hs)), ih]
      · cases hp : parseAmount (getCol r 3) with
        | some a =>
          simp only [List.cons_append, dailyScan_cons_match date en r _ a hr hs hp, ih]
        | none =>
          simp only [List.cons_append, dailyScan_cons_skip date en r _ (Or.inr (Or.inr hp)), ih]
    · simp only [List.cons_append, dailyScan_cons_skip date en r _ (Or.inl hr), ih]

theorem daily_skip (pre post : List Row) (row : Row) (date : String)
    (en : Option String) (hpre : pre ≠ [])
    (h : rowMatchesDaily date row → ¬ skipsEmployee en row →
      parseAmount (getCol row 3) = none) :
    get_daily_debts (pre ++ row :: post) date en = get_daily_debts (pre ++ post) date en := by
  obtain ⟨p, pre', rfl⟩ := List.exists_cons_of_ne_nil hpre
  have hskip := dailyScan_skip date en row h pre' post
  have h2 : ¬ (p :: pre' ++ row :: post).length < 2 := by
    simp only [List.cons_append, List.length_cons, List.length_append]
    omega
  by_cases hlen : (p :: pre' ++ post).length < 2
  · have hp' : pre' = [] := by
      simp [List.length_append] at hlen
      exact List.eq_nil_of_length_eq_zero (by omega)
    have hq' : post = [] := by
      simp [List.length_append] at hlen
      exact List.eq_nil_of_length_eq_zero (by omega)
    subst hp'; subst hq'
    simp only [get_daily_debts, if_neg h2, if_pos hlen]
    simpa using hskip
  · simp only [get_daily_debts, if_neg h2, if_neg hlen]
    exact hskip

theorem dailyScan_some_eq_filter (date n : String) (hn : n ≠ "") (rows : List Row) :
    dailyScan date (some n) rows =
      (dailyScan date none rows).filter fun e => e.employee == n := by
  induction rows with
  | nil => simp [dailyScan]
  | cons row rest ih =>
    have hskipn : ¬ skipsEmployee none row := by
      simp [skipsEmployee, empFilterActive]
    by_cases hm : rowMatchesDaily date row
    · by_cases hemp : getCol row 1 = n
      · have hs : ¬ skipsEmployee (some n) row := fun hc => hc.2 (by simpa using hemp)
        cases hp : parseAmount (getCol row 3) with
        | some a =>
          rw [dailyScan_cons_match date (some n) row rest a hm hs hp,
            dailyScan_cons_match date none row rest a hm hskipn hp]
          simp [List.filter_cons, hemp, ih]
        | none =>
          rw [dailyScan_cons_skip date (some n) row rest (Or.inr (Or.inr hp)),
            dailyScan_cons_skip date none row rest (Or.inr (Or.inr hp))]
          exact ih
      · have hs : skipsEmployee (some n) row := by
          refine ⟨by simp [empFilterActive, hn], by simpa using hemp⟩
        rw [dailyScan_cons_skip date (some n) row rest (Or.inr (Or.inl hs))]
        cases hp : parseAmount (getCol row 3) with
        | some a =>
          rw [dailyScan_cons_match date none row rest a hm hskipn hp]
          simp [List.filter_cons, hemp, ih]
        | none =>
          rw [dailyScan_cons_skip date none row rest (Or.inr (Or.inr hp))]
          exact ih
    · rw [dailyScan_cons_skip date (some n) row rest (Or.inl hm),
        dailyScan_cons_skip date none row rest (Or.inl hm)]
      exact ih

theorem dailyScan_empty_name (date : String) (rows : List Row) :
    dailyScan date (some "") rows = dailyScan date none rows := by
  induction rows with
  | nil => rfl
  | cons row rest ih =>
    have h1 : ¬ skipsEmployee (some "") row := by
      simp [skipsEmployee, empFilterActive]
    have h2 : ¬ skipsEmployee none row := by
      simp [skipsEmployee, empFilterActive]
    by_cases hm : rowMatchesDaily date row
    · cases hp : parseAmount (getCol row 3) with
      | some a =>
        rw [dailyScan_cons_match date (some "") row rest a hm h1 hp,
          dailyScan_cons_match date none row rest a hm h2 hp, ih]
      | none =>
        rw [dailyScan_cons_skip date (some "") row rest (Or.inr (Or.inr hp)),
          dailyScan_cons_skip date none row rest (Or.inr (Or.inr hp)), ih]
    · rw [dailyScan_cons_skip date (some "") row rest (Or.inl hm),
        dailyScan_cons_skip date none row rest (Or.inl hm), ih]

theorem summaryScan_cons_pos (debts : List Row) (month e : String) (rest : List String)
    (h : 0 < (calculate_monthly_debt debts e month).1) :
    summaryScan debts month (e :: rest) =
      ((calculate_monthly_debt debts e month).1 + (summaryScan debts month rest).1,
        (e, (calculate_monthly_debt debts e month).1) :: (summaryScan debts month rest).2) := by
  simp only [summaryScan]
  rw [if_pos h]

theorem summaryScan_cons_neg (debts : List Row) (month e : String) (rest : List String)
    (h : ¬ 0 < (calculate_monthly_debt debts e month).1) :
    summaryScan debts month (e :: rest) = summaryScan debts month rest := by
  simp only [summaryScan]
  rw [if_neg h]

theorem summaryScan_fst (debts : List Row) (month : String) (names : List String) :
    (summaryScan debts month names).1 =
      ((names.filter fun e => decide (0 < (calculate_monthly_debt debts e month).1)).map
        fun e => (calculate_monthly_debt debts e month).1).sum := by
  induction names with
  | nil => rfl
  | cons e rest ih =>
    by_cases h : 0 < (calculate_monthly_debt debts e month).1
    · rw [summaryScan_cons_pos debts month e rest h]
      simp [List.filter_cons, h, ih]
    · rw [summaryScan_cons_neg debts month e rest h]
      simp [List.filter_cons, h, ih]

theorem summaryScan_snd (debts : List Row) (month : String) (names : List String) :
    (summaryScan debts month names).2 =
      ((names.filter fun e => decide (0 < (calculate_monthly_debt debts e month).1)).map
        fun e => (e, (calculate_monthly_debt debts e month).1)) := by
  induction names with
  | nil => rfl
  | cons e rest ih =>
    by_cases h : 0 < (calculate_monthly_debt debts e month).1
    · rw [summaryScan_cons_pos debts month e rest h]
      simp [List.filter_cons, h, ih]
    · rw [summaryScan_cons_neg debts month e rest h]
      simp [List.filter_cons, h, ih]

theorem runningAnnotate_length (acc : Rat) (l : List Detail) :
    (runningAnnotate acc l).length = l.length := by
  induction l generalizing acc with
  | nil => rfl
  | cons d rest ih => simp [runningAnnotate, ih]

theorem runningAnnotate_map_fst (acc : Rat) (l : List Detail) :
    (runningAnnotate acc l).map Prod.fst = l := by
  induction l generalizing acc with
  | nil => rfl
  | cons d rest ih => simp [runningAnnotate, ih]

theorem runningAnnotate_get (l : List Detail) (acc : Rat) (i : Nat)
    (h : i < (runningAnnotate acc l).length) :
    ((runningAnnotate acc l).get ⟨i, h⟩).2 =
      acc + ((l.take (i + 1)).map Detail.amount).sum := by
  induction l generalizing acc i with
  | nil => simp [runningAnnotate] at h
  | cons d rest ih =>
    cases i with
    | zero => simp [runningAnnotate]
    | succ j =>
      have hj : j < (runningAnnotate (acc + d.amount) rest).length := by
        simpa [runningAnnotate] using h
      have hstep := ih (acc + d.amount) j hj
      simp only [runningAnnotate, List.get_cons_succ, hstep, List.take_succ_cons,
        List.map_cons, List.sum_cons]
      ring

theorem monthlyScan_amount_parses (n m : String) (rows : List Row) :
    ∀ d ∈ (monthlyScan n m rows).2,
      ∃ row ∈ rows, parseAmount (getCol row 3) = some d.amount := by
  induction rows with
  | nil =>
    intro d hd
    simp [monthlyScan] at hd
  | cons row rest ih =>
    intro d hd
    by_cases hm : rowMatchesMonthly n m row
    · cases hp : parseAmount (getCol row 3) with
      | some a =>
        rw [monthlyScan_cons_match n m row rest a hm hp] at hd
        rcases List.mem_cons.mp hd with hd | hd
        · subst hd
          exact ⟨row, List.mem_cons_self row rest, by simpa using hp⟩
        · obtain ⟨r, hr, hpr⟩ := ih d hd
          exact ⟨r, List.mem_cons_of_mem _ hr, hpr⟩
      | none =>
        rw [monthlyScan_cons_skip n m row rest (Or.inr hp)] at hd
        obtain ⟨r, hr, hpr⟩ := ih d hd
        exact ⟨r, List.mem_cons_of_mem _ hr, hpr⟩
    · rw [monthlyScan_cons_skip n m row rest (Or.inl hm)] at hd
      obtain ⟨r, hr, hpr⟩ := ih d hd
      exact ⟨r, List.mem_cons_of_mem _ hr, hpr⟩

theorem dailyScan_amount_parses (date : String) (en : Option String) (rows : List Row) :
    ∀ e ∈ dailyScan date en rows,
      ∃ row ∈ rows, parseAmount (getCol row 3) = some e.amount := by
  induction rows with
  | nil =>
    intro e he
    simp [dailyScan] at he
  | cons row rest ih =>
    intro e he
    by_cases hm : rowMatchesDaily date row
    · by_cases hs : skipsEmployee en row
      · rw [dailyScan_cons_skip date en row rest (Or.inr (Or.inl hs))] at he
        obtain ⟨r, hr, hpr⟩ := ih e he
        exact ⟨r, List.mem_cons_of_mem _ hr, hpr⟩
      · cases hp : parseAmount (getCol row 3) with
        | some a =>
          rw [dailyScan_cons_match date en row rest a hm hs hp] at he
          rcases List.mem_cons.mp he with he | he
          · subst he
            exact ⟨row, List.mem_cons_self row rest, by simpa using hp⟩
          · obtain ⟨r, hr, hpr⟩ := ih e he
            exact ⟨r, List.mem_cons_of_mem _ hr, hpr⟩
        | none =>
          rw [dailyScan_cons_skip date en row rest (Or.inr (Or.inr hp))] at he
          obtain ⟨r, hr, hpr⟩ := ih e he
          exact ⟨r, List.mem_cons_of_mem _ hr, hpr⟩
    · rw [dailyScan_cons_skip date en row rest (Or.inl hm)] at he
      obtain ⟨r, hr, hpr⟩ := ih e he
      exact ⟨r, List.mem_cons_of_mem _ hr, hpr⟩

theorem dateMinusOneDay_first (y mo : Nat) :
    dateMinusOneDay ⟨y, mo, 1⟩ =
      if 1 < mo then ⟨y, mo - 1, daysInMonth y (mo - 1)⟩ else ⟨y - 1, 12, 31⟩ := by
  simp [dateMinusOneDay]

/-! ### Claim theorems -/

/-- C1: `calculate_monthly_debt` returns a total equal to the sum of the
parsed amounts over exactly the rows whose employee-name field (column 1)
equals `employee_name` and whose period-label field (column 4) equals
`month` under exact string equality (a row must have at least 5 columns for
both fields to exist), and details containing exactly those rows in store
row order; consequently appending a row that does not match the filter
never changes the returned total or details. -/
theorem calculate_monthly_debt_filter_sound (debts : List Row) (n m : String) :
    ((calculate_monthly_debt debts n m).1 =
        (((debts.drop 1).filter fun row => decide (rowMatchesMonthly n m row)).filterMap
          fun row => parseAmount (getCol row 3)).sum ∧
      (calculate_monthly_debt debts n m).2 =
        ((debts.drop 1).filter fun row => decide (rowMatchesMonthly n m row)).filterMap
          fun row => (parseAmount (getCol row 3)).map
            fun a => ({ date := getCol row 0, items := getCol row 2, amount := a } : Detail)) ∧
    ∀ row : Row, ¬ rowMatchesMonthly n m row →
      calculate_monthly_debt (debts ++ [row]) n m = calculate_monthly_debt debts n m := by
  refine ⟨⟨?_, ?_⟩, ?_⟩
  · by_cases hlen : debts.length < 2
    · have hdrop : debts.drop 1 = [] := List.drop_eq_nil_of_le (by omega)
      simp [calculate_monthly_debt, hlen, hdrop]
    · simp only [calculate_monthly_debt, if_neg hlen]
      exact monthlyScan_fst n m _
  · by_cases hlen : debts.length < 2
    · have hdrop : debts.drop 1 = [] := List.drop_eq_nil_of_le (by omega)
      simp [calculate_monthly_debt, hlen, hdrop]
    · simp only [calculate_monthly_debt, if_neg hlen]
      exact monthlyScan_snd n m _
  · intro row hrow
    cases debts with
    | nil => simp [calculate_monthly_debt]
    | cons p rest =>
      have h := calculate_skip (p :: rest) [] row n m (by simp) fun hm => absurd hm hrow
      simpa using h

/-- Witness for C1: appending a non-matching row (different employee) to a
concrete table leaves the result unchanged. -/
theorem calculate_monthly_debt_filter_sound_witness :
    calculate_monthly_debt
        ([["h"], ["01.01", "Alice", "tea", "5", "January 2024"]] ++
          [["02.01", "Bob", "coffee", "7", "January 2024"]]) "Alice" "January 2024" =
      calculate_monthly_debt [["h"], ["01.01", "Alice", "tea", "5", "January 2024"]]
        "Alice" "January 2024" :=
  (calculate_monthly_debt_filter_sound
      [["h"], ["01.01", "Alice", "tea", "5", "January 2024"]] "Alice" "January 2024").2
    ["02.01", "Bob", "coffee", "7", "January 2024"] (by decide)

/-- C2: for every valid calendar date, `resolve_period` yields the label of
the date's own month and year when the day is at least 10, and the label of
the previous calendar month otherwise, rolling over to December of the
previous year in January. -/
theorem resolve_period_spec (d : CalDate) (hm1 : 1 ≤ d.month) (hm2 : d.month ≤ 12)
    (hy : 1 ≤ d.year) (hd1 : 1 ≤ d.day) (hd2 : d.day ≤ daysInMonth d.year d.month) :
    (10 ≤ d.day → resolve_period d = monthLabel d.month d.year) ∧
    (d.day < 10 →
      resolve_period d =
        if d.month = 1 then monthLabel 12 (d.year - 1)
        else monthLabel (d.month - 1) d.year) := by
  constructor
  · intro h
    simp only [resolve_period, if_pos h]
  · intro h
    have h10 : ¬ 10 ≤ d.day := by omega
    simp only [resolve_period, if_neg h10, dateMinusOneDay_first]
    by_cases hm : d.month = 1
    · simp [hm]
    · have hlt : 1 < d.month := by omega
      simp [if_pos hlt, if_neg hm, hlt, hm]

/-- Witness for C2: `resolve_period` on 2024-01-05 yields "December 2023". -/
theorem resolve_period_spec_witness :
    resolve_period ⟨2024, 1, 5⟩ = "December 2023" := by
  have h := (resolve_period_spec ⟨2024, 1, 5⟩ (by decide) (by decide) (by decide)
    (by decide) (by decide)).2 (by decide)
  rw [h]
  rfl

/-- C3: `get_all_debts_summary` includes exactly the enumerated employee
names (store order, duplicates kept) whose period total is strictly
positive — so an employee with total exactly 0 is excluded — and its grand
total is the sum of the included employees' totals. -/
theorem get_all_debts_summary_spec (employees_data debts_data : List Row) (month : String) :
    (get_all_debts_summary employees_data debts_data month).2 =
      (((get_all_employees employees_data).filter
          fun e => decide (0 < (calculate_monthly_debt debts_data e month).1)).map
        fun e => (e, (calculate_monthly_debt debts_data e month).1)) ∧
    (get_all_debts_summary employees_data debts_data month).1 =
      ((((get_all_employees employees_data).filter
          fun e => decide (0 < (calculate_monthly_debt debts_data e month).1)).map
        fun e => (calculate_monthly_debt debts_data e month).1).sum) :=
  ⟨summaryScan_snd debts_data month _, summaryScan_fst debts_data month _⟩

/-- C4: a row whose amount field does not parse as a number is excluded
from the total and details of `calculate_monthly_debt` and from the results
of `get_daily_debts`, and the scan continues over the remaining rows. -/
theorem unparsable_row_skipped (pre post : List Row) (row : Row)
    (n m date : String) (en : Option String) (hpre : pre ≠ [])
    (hbad : parseAmount (getCol row 3) = none) :
    calculate_monthly_debt (pre ++ row :: post) n m =
      calculate_monthly_debt (pre ++ post) n m ∧
    get_daily_debts (pre ++ row :: post) date en = get_daily_debts (pre ++ post) date en :=
  ⟨calculate_skip pre post row n m hpre fun _ => hbad,
   daily_skip pre post row date en hpre fun _ _ => hbad⟩

/-- Witness for C4: one malformed row among five valid rows is dropped and
the total is the sum of the four valid amounts. -/
theorem unparsable_row_skipped_witness :
    (calculate_monthly_debt
        ([["h"], ["01.01", "A", "x", "10", "Jan"], ["02.01", "A", "y", "20", "Jan"]] ++
          ["03.01", "A", "z", "oops", "Jan"] ::
            [["04.01", "A", "w", "30", "Jan"], ["05.01", "A", "v", "40", "Jan"]])
        "A" "Jan" =
      calculate_monthly_debt
        ([["h"], ["01.01", "A", "x", "10", "Jan"], ["02.01", "A", "y", "20", "Jan"]] ++
          [["04.01", "A", "w", "30", "Jan"], ["05.01", "A", "v", "40", "Jan"]])
        "A" "Jan") ∧
    (calculate_monthly_debt
        ([["h"], ["01.01", "A", "x", "10", "Jan"], ["02.01", "A", "y", "20", "Jan"]] ++
          ["03.01", "A", "z", "oops", "Jan"] ::
            [["04.01", "A", "w", "30", "Jan"], ["05.01", "A", "v", "40", "Jan"]])
        "A" "Jan").1 = 100 :=
  ⟨(unparsable_row_skipped
      [["h"], ["01.01", "A", "x", "10", "Jan"], ["02.01", "A", "y", "20", "Jan"]]
      [["04.01", "A", "w", "30", "Jan"], ["05.01", "A", "v", "40", "Jan"]]
      ["03.01", "A", "z", "oops", "Jan"] "A" "Jan" "01.01" none
      (by decide) (by decide)).1,
   by decide⟩

/-- C5 counterexample: the claim that every included amount is non-negative
fails on the code — `float` accepts a negative literal and no sign check is
performed, so a row with amount "-5" is included with a negative amount. -/
theorem included_amount_nonneg_counterexample :
    (calculate_monthly_debt
        [["date", "employee", "items", "amount", "month"],
          ["01.01.2024", "Alice", "snacks", "-5", "January 2024"]]
        "Alice" "January 2024").1 = -5 ∧
    ((calculate_monthly_debt
        [["date", "employee", "items", "amount", "month"],
          ["01.01.2024", "Alice", "snacks", "-5", "January 2024"]]
        "Alice" "January 2024").2.map Detail.amount) = [-5] := by
  decide

/-- C5 (amended): every amount included in an aggregate is the successful
parse of some data row's amount field — rows whose amount fails to parse
are skipped — but the sign of the parsed amount is not checked, so a
negative amount can be included. -/
theorem included_amounts_parse (debts : List Row) (n m date : String) (en : Option String) :
    (∀ d ∈ (calculate_monthly_debt debts n m).2,
        ∃ row ∈ debts.drop 1, parseAmount (getCol row 3) = some d.amount) ∧
    (∀ e ∈ get_daily_debts debts date en,
        ∃ row ∈ debts.drop 1, parseAmount (getCol row 3) = some e.amount) := by
  constructor
  · intro d hd
    by_cases hlen : debts.length < 2
    · simp [calculate_monthly_debt, hlen] at hd
    · simp only [calculate_monthly_debt, if_neg hlen] at hd
      exact monthlyScan_amount_parses n m _ d hd
  · intro e he
    by_cases hlen : debts.length < 2
    · simp [get_daily_debts, hlen] at he
    · simp only [get_daily_debts, if_neg hlen] at he
      exact dailyScan_amount_parses date en _ e he

/-- Witness for C5 (amended): the included detail of a concrete table has
its amount produced by parsing the row's amount cell. -/
theorem included_amounts_parse_witness :
    ∃ row ∈ ([["h"], ["01.01", "Alice", "tea", "5", "Jan"]] : List Row).drop 1,
      parseAmount (getCol row 3) = some (Detail.amount ⟨"01.01", "tea", 5⟩) :=
  (included_amounts_parse [["h"], ["01.01", "Alice", "tea", "5", "Jan"]] "Alice" "Jan"
      "01.01" none).1 ⟨"01.01", "tea", 5⟩ (by decide)

/-- C6: when no data row matches the (employee, period) filter — including
the empty and header-only tables — `calculate_monthly_debt` returns total 0
and an empty details list. -/
theorem calculate_monthly_debt_no_match (debts : List Row) (n m : String)
    (h : ∀ row ∈ debts.drop 1, ¬ rowMatchesMonthly n m row) :
    calculate_monthly_debt debts n m = (0, []) := by
  by_cases hlen : debts.length < 2
  · simp [calculate_monthly_debt, hlen]
  · simp only [calculate_monthly_debt, if_neg hlen]
    exact monthlyScan_no_match n m _ h

/-- Witness for C6: a table whose only data row names another employee
yields `(0, [])`. -/
theorem calculate_monthly_debt_no_match_witness :
    calculate_monthly_debt [["h"], ["01.01", "Bob", "tea", "5", "February 2024"]]
        "Alice" "February 2024" = (0, []) :=
  calculate_monthly_debt_no_match _ "Alice" "February 2024" (by decide)

/-- C7: `running_total` is a pure cumulative-sum annotation over its input
in the given order: it preserves length and the underlying details, and the
i-th annotated value is the sum of the first i+1 amounts. -/
theorem running_total_spec (details : List Detail) :
    (running_total details).length = details.length ∧
    (running_total details).map Prod.fst = details ∧
    ∀ i (h : i < (running_total details).length),
      ((running_total details).get ⟨i, h⟩).2 =
        ((details.take (i + 1)).map Detail.amount).sum := by
  refine ⟨runningAnnotate_length 0 details, runningAnnotate_map_fst 0 details, ?_⟩
  intro i h
  have hg := runningAnnotate_get details 0 i h
  simpa using hg

/-- Witness for C7: amounts [10, 5, 20] produce cumulative value 35 at the
last position. -/
theorem running_total_spec_witness :
    ((running_total [⟨"d1", "bread", 10⟩, ⟨"d2", "milk", 5⟩, ⟨"d3", "cheese", 20⟩]).get
        ⟨2, by decide⟩).2 = 35 :=
  ((running_total_spec
      [⟨"d1", "bread", 10⟩, ⟨"d2", "milk", 5⟩, ⟨"d3", "cheese", 20⟩]).2.2 2
    (by decide)).trans (by decide)

/-- C8 counterexample: when the only entry at the date already belongs to
the filtered employee, the filtered result equals the unfiltered result, so
it is not a strict subset. -/
theorem daily_filter_strict_counterexample :
    get_daily_debts [["h"], ["01.01.2024", "Alice", "tea", "5"]] "01.01.2024" (some "Alice") =
      get_daily_debts [["h"], ["01.01.2024", "Alice", "tea", "5"]] "01.01.2024" none := by
  decide

/-- C8 (amended): the employee-filtered result of `get_daily_debts` equals
the unfiltered result for the same date restricted to the entries whose
employee field equals the given name; hence it is a sublist (a subset, not
necessarily strict) of the unfiltered result. -/
theorem daily_filter_subset (debts : List Row) (date n : String) (hn : n ≠ "") :
    get_daily_debts debts date (some n) =
      (get_daily_debts debts date none).filter (fun e => e.employee == n) ∧
    (get_daily_debts debts date (some n)).Sublist (get_daily_debts debts date none) := by
  have hfilter : get_daily_debts debts date (some n) =
      (get_daily_debts debts date none).filter (fun e => e.employee == n) := by
    by_cases hlen : debts.length < 2
    · simp [get_daily_debts, hlen]
    · simp only [get_daily_debts, if_neg hlen]
      exact dailyScan_some_eq_filter date n hn _
  refine ⟨hfilter, ?_⟩
  rw [hfilter]
  exact List.filter_sublist _

/-- Witness for C8 (amended): filtering a two-employee day by "Alice"
coincides with restricting the unfiltered result to Alice's entries. -/
theorem daily_filter_subset_witness :
    get_daily_debts [["h"], ["01.01", "Alice", "tea", "5"], ["01.01", "Bob", "bun", "7"]]
        "01.01" (some "Alice") =
      (get_daily_debts [["h"], ["01.01", "Alice", "tea", "5"], ["01.01", "Bob", "bun", "7"]]
          "01.01" none).filter (fun e => e.employee == "Alice") :=
  (daily_filter_subset _ "01.01" "Alice" (by decide)).1

/-- C9: a row with fewer than 5 columns contributes to neither the total
nor the details of `calculate_monthly_debt`, even when its employee cell
matches and the period filter is the empty string; a row with fewer than 4
columns never appears in `get_daily_debts` results; both operations are
total functions over arbitrary ragged rows. -/
theorem short_row_skipped (pre post : List Row) (row : Row)
    (n m date : String) (en : Option String) (hpre : pre ≠ []) :
    (row.length < 5 →
      calculate_monthly_debt (pre ++ row :: post) n m =
        calculate_monthly_debt (pre ++ post) n m) ∧
    (row.length < 4 →
      get_daily_debts (pre ++ row :: post) date en =
        get_daily_debts (pre ++ post) date en) := by
  constructor
  · intro h5
    exact calculate_skip pre post row n m hpre fun hm => absurd hm.1 (by omega)
  · intro h4
    exact daily_skip pre post row date en hpre fun hm _ => absurd hm.1 (by omega)

/-- Witness for C9: a 4-column row whose employee matches and whose missing
period cell reads as the empty string is still skipped by the monthly scan,
and a 3-column row is skipped by the daily scan. -/
theorem short_row_skipped_witness :
    calculate_monthly_debt [["h"], ["01.01", "Alice", "tea", "5"]] "Alice" "" =
      calculate_monthly_debt [["h"]] "Alice" "" ∧
    get_daily_debts [["h"], ["01.01", "Alice", "tea"]] "01.01" none =
      get_daily_debts [["h"]] "01.01" none :=
  ⟨(short_row_skipped [["h"]] [] ["01.01", "Alice", "tea", "5"] "Alice" "" "01.01" none
      (by decide)).1 (by decide),
   (short_row_skipped [["h"]] [] ["01.01", "Alice", "tea"] "Alice" "" "01.01" none
      (by decide)).2 (by decide)⟩

/-- C10: calling `get_daily_debts` with the empty string as the employee
filter returns the same result as calling it with no filter at all — the
empty string is falsy in the `if employee_name` guard, so it never
restricts to rows whose employee field is empty. -/
theorem daily_empty_name_no_filter (debts : List Row) (date : String) :
    get_daily_debts debts date (some "") = get_daily_debts debts date none := by
  by_cases hlen : debts.length < 2
  · simp [get_daily_debts, hlen]
  · simp only [get_daily_debts, if_neg hlen]
    exact dailyScan_empty_name date _

example : parseAmount "5" = some 5 := by decide
example : parseAmount "12.5" = some (25 / 2 : Rat) := by decide
example : parseAmount "-5" = some (-5) := by decide
example : parseAmount "oops" = none := by decide
example : parseAmount "" = none := by decide
example : parseAmount " 1e2 " = some 100 := by decide
example : resolve_period ⟨2024, 1, 5⟩ = "December 2023" := by decide
example : resolve_period ⟨2024, 3, 15⟩ = "March 2024" := by decide
example :
    calculate_monthly_debt
      [["h"], ["01.01", "Alice", "tea", "5", "Jan"], ["02.01", "Bob", "x", "7", "Jan"]]
      "Alice" "Jan" = (5, [⟨"01.01", "tea", 5⟩]) := by decide
example :
    get_daily_debts [["h"], ["01.01", "Alice", "tea", "5"]] "01.01" none =
      [⟨"Alice", "tea", 5⟩] := by decide
